import Mathlib

/-!
Verification of the portfolio-NAV engine of `pfnav.py`.

The shallow embedding models:
  - `datetime.date` as `Nat` (only the order of dates matters to the engine);
  - `Decimal` as `ℚ` (the spec prescribes exact-decimal arithmetic, §4.3);
  - Python dicts as association lists (`List (key × value)`), preserving
    insertion order, since the code iterates over `dict.items()`;
  - raised exceptions (`ValueError`, `KeyError`, `IndexError`,
    `DivisionByZero`) as an `Except PfError` result.

`calculate_pf_nav` (pfnav.py lines 139-184) and `calculate_pf_nav2`
(lines 66-136) are transcribed line by line below.
-/

/-- Errors raised by the Python code: the two `ValueError`s of
`calculate_pf_nav`, a `KeyError` on a date row (`navs[date]`), a `KeyError`
on a fund price (`navs[date][fund]`), the `IndexError` of
`calculate_pf_nav2`'s unguarded `relevant_dates[0]`, and `Decimal`'s
`DivisionByZero`.  Note: there is no `DegenerateValueError` anywhere in the
source. -/
inductive PfError where
  | noTransactions
  | noRelevantDates
  | missingDate (date : Nat)
  | missingPrice (fund : String)
  | divisionByZero
  | indexError
deriving DecidableEq, Repr

/-- The `TransactionType` enum of pfnav.py. -/
inductive TransactionType where
  | BUY
  | SELL
deriving DecidableEq, Repr

/-- The `Transaction` dataclass of pfnav.py. -/
structure Transaction where
  mf_name : String
  date : Nat
  txn_type : TransactionType
  units : ℚ
  nav : ℚ
deriving DecidableEq, Repr

/-- Source method `Transaction.sign`: +1 for BUY and -1 for SELL. -/
def Transaction.sign (t : Transaction) : ℚ :=
  match t.txn_type with
  | .BUY => 1
  | .SELL => -1

/-- Source method `Transaction.signed_units`: positive for BUY and negative for SELL. -/
def Transaction.signed_units (t : Transaction) : ℚ := t.sign * t.units

/-- Source method `Transaction.value`: units * NAV. -/
def Transaction.value (t : Transaction) : ℚ := t.units * t.nav

/-- Source method `Transaction.signed_value`: positive for BUY and negative for SELL. -/
def Transaction.signed_value (t : Transaction) : ℚ := t.sign * t.value

/-- Association-list lookup, modelling a Python `dict[key]` access
(`none` models a `KeyError`). -/
def lookupA {α β : Type} [DecidableEq α] : List (α × β) → α → Option β
  | [], _ => none
  | (k, v) :: rest, a => if k = a then some v else lookupA rest a

/-- A `defaultdict(Decimal)` update `d[a] += q`: bump an existing entry in
place, or insert the key (defaulting to 0) at the end. -/
def bumpUnits {α : Type} [DecidableEq α] : List (α × ℚ) → α → ℚ → List (α × ℚ)
  | [], a, q => [(a, q)]
  | (k, v) :: rest, a, q =>
    if k = a then (k, v + q) :: rest else (k, v) :: bumpUnits rest a q

/-- The `NavManager` dataclass of pfnav.py: `navs` maps NAV date →
fund name → NAV, plus a `current_date` horizon. -/
structure NavManager where
  navs : List (Nat × List (String × ℚ))
  current_date : Nat
deriving DecidableEq, Repr

/-- Source method `NavManager.get_all_dates_sorted`: `sorted(self.navs.keys())`.
A Python dict cannot hold duplicate keys, so the key list is deduplicated
before sorting. -/
def NavManager.get_all_dates_sorted (nm : NavManager) : List Nat :=
  List.insertionSort (· ≤ ·) (nm.navs.map Prod.fst).dedup

/-- The summation inside `NavManager.get_portfolio_value`:
`sum(units * self.navs[date][fund] for fund, units in mf_units.items())`.
Every entry of `mf_units` is valued — including entries whose units are 0 —
and a fund absent from the price row raises a `KeyError`. -/
def sumUnits (row : List (String × ℚ)) : List (String × ℚ) → Except PfError ℚ
  | [] => pure 0
  | (fund, units) :: rest =>
    match lookupA row fund with
    | none => .error (.missingPrice fund)
    | some price => do
      let s ← sumUnits row rest
      pure (units * price + s)

/-- Source method `NavManager.get_portfolio_value` (pfnav.py lines 50-52). -/
def NavManager.get_portfolio_value (nm : NavManager) (date : Nat)
    (mf_units : List (String × ℚ)) : Except PfError ℚ :=
  match lookupA nm.navs date with
  | none => .error (.missingDate date)
  | some row => sumUnits row mf_units

/-- Exact `Decimal` division: dividing by zero raises `DivisionByZero`. -/
def pfDiv (a b : ℚ) : Except PfError ℚ :=
  if b = 0 then .error .divisionByZero else pure (a / b)

/-- Grouping `txns_by_date[date]` built with a `defaultdict(list)`:
the transactions with the given date, in their original order. -/
def txns_by_date (txns : List Transaction) (d : Nat) : List Transaction :=
  txns.filter (fun t => t.date == d)

/-- The mutable local state of `calculate_pf_nav`'s date walk. -/
structure PfState where
  portfolio_units : ℚ
  curr_mf_units : List (String × ℚ)
  current_nav : ℚ
deriving DecidableEq, Repr

/-- The inner loop `for txn in txns_by_date[date]` of `calculate_pf_nav`
(lines 179-182): `current_nav` is not reassigned inside this loop, so it is
a fixed parameter `nav` here.
`portfolio_units += txn.signed_value() / current_nav` and
`curr_mf_units[txn.mf_name] += txn.signed_units()`. -/
def apply_txns (nav : ℚ) : List Transaction → PfState → Except PfError PfState
  | [], st => pure st
  | t :: ts, st => do
    let du ← pfDiv t.signed_value nav
    apply_txns nav ts
      { st with
        portfolio_units := st.portfolio_units + du
        curr_mf_units := bumpUnits st.curr_mf_units t.mf_name t.signed_units }

/-- The date loop `for date in relevant_dates` of `calculate_pf_nav`
(lines 170-182): if `portfolio_units != 0` recompute
`current_nav = get_portfolio_value(date, curr_mf_units) / portfolio_units`
(the division is safe, the guard gives `portfolio_units ≠ 0`); append
`(date, current_nav)`; then process today's transactions. -/
def runDates (nm : NavManager) (tbd : Nat → List Transaction) :
    List Nat → PfState → Except PfError (List (Nat × ℚ))
  | [], _ => pure []
  | date :: rest, st => do
    let nav ← (do
      if st.portfolio_units ≠ 0 then do
        let v ← nm.get_portfolio_value date st.curr_mf_units
        pure (v / st.portfolio_units)
      else pure st.current_nav)
    let st' ← apply_txns nav (tbd date) { st with current_nav := nav }
    let out ← runDates nm tbd rest st'
    pure ((date, nav) :: out)

/-- Source function `calculate_pf_nav` (pfnav.py lines 139-184). -/
def calculate_pf_nav (txns : List Transaction) (nav_mgr : NavManager)
    (base_nav : ℚ) : Except PfError (List (Nat × ℚ)) :=
  match txns with
  | [] => .error .noTransactions
  | t0 :: _ =>
    let relevant_dates := nav_mgr.get_all_dates_sorted.filter
      (fun d => decide (t0.date ≤ d) && decide (d ≤ nav_mgr.current_date))
    if relevant_dates = [] then .error .noRelevantDates
    else runDates nav_mgr (txns_by_date txns) relevant_dates
      { portfolio_units := 0, curr_mf_units := [], current_nav := base_nav }

/-- The second summation helper `_calculate_portfolio_value` of pfnav.py
(lines 61-63), used by `calculate_pf_nav2`:
`sum(units[fund] * navs[fund] for fund in units if units[fund] != 0)`.
Unlike `NavManager.get_portfolio_value`, zero-unit entries are skipped. -/
def calculate_portfolio_value_aux :
    List (String × ℚ) → List (String × ℚ) → Except PfError ℚ
  | [], _ => pure 0
  | (fund, u) :: rest, navs_row =>
    if u = 0 then calculate_portfolio_value_aux rest navs_row
    else
      match lookupA navs_row fund with
      | none => .error (.missingPrice fund)
      | some price => do
        let s ← calculate_portfolio_value_aux rest navs_row
        pure (u * price + s)

/-- The mutable local state of `calculate_pf_nav2`'s date walk. -/
structure Pf2State where
  curr_units : List (String × ℚ)
  initial_pf_value : ℚ
  last_nav : ℚ
deriving DecidableEq, Repr

/-- The inner loop `for txn in txns_by_date[date]` of `calculate_pf_nav2`
(lines 124-134).  `curr_pf_value`, `normalized_nav` and `last_nav` are not
reassigned inside this loop, so they are fixed parameters here.  The state
carried through the loop is `(curr_units, initial_pf_value)`. -/
def apply_txns2 (base curr_pf_value normalized_nav last_nav : ℚ) :
    List Transaction → List (String × ℚ) × ℚ →
    Except PfError (List (String × ℚ) × ℚ)
  | [], s => pure s
  | t :: ts, (units, initial) =>
    let units' := bumpUnits units t.mf_name t.signed_units
    if curr_pf_value = 0 ∧ t.txn_type = .BUY then do
      let q ← pfDiv (t.units * t.nav) last_nav
      apply_txns2 base curr_pf_value normalized_nav last_nav ts (units', q * base)
    else do
      let q ← pfDiv (t.signed_units * t.nav) normalized_nav
      apply_txns2 base curr_pf_value normalized_nav last_nav ts
        (units', initial + q * base)

/-- The loop `for date in relevant_dates[1:]` of `calculate_pf_nav2`
(lines 109-134).  In the Python code `last_nav` and `normalized_nav` are
equal after the branch at lines 113-119 (the then-branch sets both to the
same value, the else-branch sets `normalized_nav` to the unchanged
`last_nav`), so the state stores this common value as `last_nav`. -/
def runDates2 (nm : NavManager) (tbd : Nat → List Transaction) (base : ℚ) :
    List Nat → Pf2State → Except PfError (List (Nat × ℚ))
  | [], _ => pure []
  | date :: rest, st => do
    let row ←
      match lookupA nm.navs date with
      | none => Except.error (.missingDate date)
      | some r => pure r
    let curr_pf_value ← calculate_portfolio_value_aux st.curr_units row
    let normalized_nav ←
      if 0 < curr_pf_value ∨ 0 < st.initial_pf_value then do
        let q ← pfDiv curr_pf_value st.initial_pf_value
        pure (q * base)
      else pure st.last_nav
    let s' ← apply_txns2 base curr_pf_value normalized_nav normalized_nav
      (tbd date) (st.curr_units, st.initial_pf_value)
    let out ← runDates2 nm tbd base rest
      { curr_units := s'.1, initial_pf_value := s'.2, last_nav := normalized_nav }
    pure ((date, normalized_nav) :: out)

/-- Source function `calculate_pf_nav2` (pfnav.py lines 66-136): filter the relevant dates,
process the first date (apply its transactions to `curr_units`, emit
`(first_date, base_nav)`, compute `initial_pf_value`, defaulting it to 1.0
when zero), then walk the remaining dates. -/
def calculate_pf_nav2 (txns : List Transaction) (nav_mgr : NavManager)
    (base_nav : ℚ) : Except PfError (List (Nat × ℚ)) :=
  match txns with
  | [] => .error .noTransactions
  | t0 :: _ =>
    let relevant_dates := nav_mgr.get_all_dates_sorted.filter
      (fun d => decide (t0.date ≤ d) && decide (d ≤ nav_mgr.current_date))
    match relevant_dates with
    | [] => .error .indexError
    | first_date :: rest =>
      let tbd := txns_by_date txns
      let curr_units0 := (tbd first_date).foldl
        (fun us t => bumpUnits us t.mf_name t.signed_units) []
      match lookupA nav_mgr.navs first_date with
      | none => .error (.missingDate first_date)
      | some row0 => do
        let initial0 ← calculate_portfolio_value_aux curr_units0 row0
        let initial1 := if initial0 = 0 then 1 else initial0
        let out ← runDates2 nav_mgr tbd base_nav rest
          { curr_units := curr_units0, initial_pf_value := initial1,
            last_nav := base_nav }
        pure ((first_date, base_nav) :: out)

/-- C1: on the end-to-end example input — BUY MF1 100@100 on day 1, BUY MF2
100@110 on day 2; prices day 1: MF1=100, day 2: MF1=110 MF2=110, day 3:
MF1=121 MF2=132, day 4: MF1=110 MF2=110; horizon day 4; base_nav 1000 —
`calculate_pf_nav` returns exactly the series
(1,1000), (2,1100), (3,1265), (4,1100). -/
theorem C1_end_to_end :
    calculate_pf_nav
      [{ mf_name := "MF1", date := 1, txn_type := .BUY, units := 100, nav := 100 },
       { mf_name := "MF2", date := 2, txn_type := .BUY, units := 100, nav := 110 }]
      { navs := [(1, [("MF1", 100)]),
                 (2, [("MF1", 110), ("MF2", 110)]),
                 (3, [("MF1", 121), ("MF2", 132)]),
                 (4, [("MF1", 110), ("MF2", 110)])],
        current_date := 4 }
      1000
    = .ok [(1, 1000), (2, 1100), (3, 1265), (4, 1100)] := by
  norm_num +decide [calculate_pf_nav, runDates, apply_txns, txns_by_date, pfDiv,
    NavManager.get_portfolio_value, NavManager.get_all_dates_sorted, sumUnits,
    lookupA, bumpUnits, Transaction.signed_value, Transaction.signed_units,
    Transaction.value, Transaction.sign, List.insertionSort, List.orderedInsert,
    Except.pure, pure, bind, Except.bind, List.filter, List.dedup]

/-- C9: a concrete valid input on which the two source variants disagree:
BUY MF1 100@100 on day 1, full SELL MF1 100@110 on day 2, then a same-day
re-entry on day 3 buying MF1 10@115 and MF2 10@115.  `calculate_pf_nav`
converts both buys into portfolio units at the frozen NAV 1100 and reports
1100 on day 4; `calculate_pf_nav2`'s re-entry branch resets
`initial_pf_value` from each buy separately, so the second buy overwrites
the first and day 4 reports 2200.  The two variants are not extensionally
equivalent. -/
theorem C9_variants_diverge :
    calculate_pf_nav
      [{ mf_name := "MF1", date := 1, txn_type := .BUY, units := 100, nav := 100 },
       { mf_name := "MF1", date := 2, txn_type := .SELL, units := 100, nav := 110 },
       { mf_name := "MF1", date := 3, txn_type := .BUY, units := 10, nav := 115 },
       { mf_name := "MF2", date := 3, txn_type := .BUY, units := 10, nav := 115 }]
      { navs := [(1, [("MF1", 100)]),
                 (2, [("MF1", 110)]),
                 (3, [("MF1", 115), ("MF2", 115)]),
                 (4, [("MF1", 115), ("MF2", 115)])],
        current_date := 4 }
      1000
      = .ok [(1, 1000), (2, 1100), (3, 1100), (4, 1100)] ∧
    calculate_pf_nav2
      [{ mf_name := "MF1", date := 1, txn_type := .BUY, units := 100, nav := 100 },
       { mf_name := "MF1", date := 2, txn_type := .SELL, units := 100, nav := 110 },
       { mf_name := "MF1", date := 3, txn_type := .BUY, units := 10, nav := 115 },
       { mf_name := "MF2", date := 3, txn_type := .BUY, units := 10, nav := 115 }]
      { navs := [(1, [("MF1", 100)]),
                 (2, [("MF1", 110)]),
                 (3, [("MF1", 115), ("MF2", 115)]),
                 (4, [("MF1", 115), ("MF2", 115)])],
        current_date := 4 }
      1000
      = .ok [(1, 1000), (2, 1100), (3, 1100), (4, 2200)] ∧
    ([(1, 1000), (2, 1100), (3, 1100), (4, 1100)] : List (Nat × ℚ)) ≠
      [(1, 1000), (2, 1100), (3, 1100), (4, 2200)] := by
  refine ⟨?_, ?_, by norm_num⟩ <;>
  norm_num +decide [calculate_pf_nav, calculate_pf_nav2, runDates, runDates2,
    apply_txns, apply_txns2, txns_by_date, pfDiv,
    NavManager.get_portfolio_value, NavManager.get_all_dates_sorted, sumUnits,
    calculate_portfolio_value_aux,
    lookupA, bumpUnits, Transaction.signed_value, Transaction.signed_units,
    Transaction.value, Transaction.sign, List.insertionSort, List.orderedInsert,
    Except.pure, pure, bind, Except.bind, List.filter, List.dedup, List.foldl]

/-- Spec §4.3, the NAV computation for one date, phrased on the engine's
state: if `portfolio_units ≠ 0` the NAV is the portfolio value divided by
`portfolio_units`, otherwise the last known NAV is carried forward.  This
is exactly the computation inlined at lines 172-173 of `calculate_pf_nav`. -/
def day_nav (nm : NavManager) (d : Nat) (st : PfState) : Except PfError ℚ :=
  if st.portfolio_units ≠ 0 then do
    let v ← nm.get_portfolio_value d st.curr_mf_units
    pure (v / st.portfolio_units)
  else pure st.current_nav

/-- Spec §4.4, applying one transaction at the single NAV `nav` computed
for its date: `portfolio_units += t.signed_cash_value / nav` and
`holdings[t.fund] += t.signed_units`. -/
def spec_apply_one (nav : ℚ) (st : PfState) (t : Transaction) : PfState :=
  { st with
    portfolio_units := st.portfolio_units + t.signed_value / nav
    curr_mf_units := bumpUnits st.curr_mf_units t.mf_name t.signed_units }

/-- The relevant-date set exactly as the spec's §4.1 words define it: all
dates ≥ the earliest transaction date and ≤ the horizon, drawn from the
union of the price-table dates and the transaction dates, sorted ascending,
duplicates removed.  (The source instead draws only from the price-table
dates and uses the first — not the earliest — transaction date.) -/
def spec_relevant_dates (txns : List Transaction) (nm : NavManager) : List Nat :=
  match txns.map Transaction.date with
  | [] => []
  | d :: ds =>
    let earliest := ds.foldl min d
    (List.insertionSort (· ≤ ·)
        ((nm.navs.map Prod.fst ++ txns.map Transaction.date).dedup)).filter
      (fun x => decide (earliest ≤ x) && decide (x ≤ nm.current_date))

theorem except_bind_pure {E A B : Type} (x : Except E A) (f : A → B) :
    (x >>= fun a => pure (f a) : Except E B) = x.map f := by
  cases x <;> rfl

/-- Unfolding lemma: one step of the date walk is — compute the day's NAV
from the incoming state, apply the day's transactions at that NAV, walk the
remaining dates, and prepend the recorded `(date, nav)` pair. -/
theorem runDates_cons (nm : NavManager) (tbd : Nat → List Transaction)
    (d : Nat) (ds : List Nat) (st : PfState) :
    runDates nm tbd (d :: ds) st =
      (day_nav nm d st).bind fun nav =>
        (apply_txns nav (tbd d) { st with current_nav := nav }).bind fun st' =>
          (runDates nm tbd ds st').map fun out => (d, nav) :: out := by
  simp only [runDates, day_nav]
  rfl

/-- A successful step decomposes into a successful day-NAV computation,
transaction application, and remaining walk. -/
theorem runDates_ok_elim (nm : NavManager) (tbd : Nat → List Transaction)
    (d : Nat) (ds : List Nat) (st : PfState) (s : List (Nat × ℚ))
    (h : runDates nm tbd (d :: ds) st = .ok s) :
    ∃ nav st' out, day_nav nm d st = .ok nav ∧
      apply_txns nav (tbd d) { st with current_nav := nav } = .ok st' ∧
      runDates nm tbd ds st' = .ok out ∧
      s = (d, nav) :: out := by
  rw [runDates_cons] at h
  cases hnav : day_nav nm d st with
  | error e => simp [hnav, Except.bind] at h
  | ok nav =>
    simp only [hnav, Except.bind] at h
    cases happ : apply_txns nav (tbd d) { st with current_nav := nav } with
    | error e => simp [happ] at h
    | ok st' =>
      simp only [happ] at h
      cases hrun : runDates nm tbd ds st' with
      | error e => simp [hrun, Except.map] at h
      | ok out =>
        simp only [hrun, Except.map, Except.ok.injEq] at h
        exact ⟨nav, st', out, rfl, happ, hrun, h.symm⟩

/-- The dates of a successful walk's output are exactly the walked dates. -/
theorem runDates_fst (nm : NavManager) (tbd : Nat → List Transaction) :
    ∀ (ds : List Nat) (st : PfState) (s : List (Nat × ℚ)),
      runDates nm tbd ds st = .ok s → s.map Prod.fst = ds
  | [], _, s, h => by
    simp only [runDates, pure, Except.pure, Except.ok.injEq] at h
    simp [← h]
  | d :: ds, st, s, h => by
    obtain ⟨nav, st', out, _, _, hrun, hs⟩ := runDates_ok_elim nm tbd d ds st s h
    subst hs
    simp [runDates_fst nm tbd ds st' out hrun]

/-- The walk consults the transaction schedule only at walked dates. -/
theorem runDates_congr (nm : NavManager) (tbd tbd' : Nat → List Transaction) :
    ∀ (ds : List Nat) (st : PfState), (∀ d ∈ ds, tbd d = tbd' d) →
      runDates nm tbd ds st = runDates nm tbd' ds st
  | [], _, _ => rfl
  | d :: ds, st, h => by
    rw [runDates_cons, runDates_cons, h d (List.mem_cons_self d ds)]
    congr 1
    funext nav
    congr 1
    funext st'
    rw [runDates_congr nm tbd tbd' ds st' (fun e he => h e (List.mem_cons_of_mem d he))]

/-- When the day's NAV is nonzero, the transaction loop is the fold of the
spec's single-transaction update, every step using the same fixed NAV. -/
theorem apply_txns_eq_foldl (nav : ℚ) (hnav : nav ≠ 0) :
    ∀ (ts : List Transaction) (st : PfState),
      apply_txns nav ts st = .ok (ts.foldl (spec_apply_one nav) st)
  | [], st => rfl
  | t :: ts, st => by
    simp only [apply_txns, pfDiv, if_neg hnav, List.foldl_cons]
    exact apply_txns_eq_foldl nav hnav ts (spec_apply_one nav st t)

/-- C2: end-of-day convention.  (1) The NAV recorded for a date depends
only on the state carried in from previous dates — two walks from the same
state, with arbitrary (different) transaction schedules and futures, record
the same first entry, so a transaction dated today never influences today's
reported NAV.  (2) Each date step decomposes as: compute `day_nav` from the
pre-transaction state, record `(date, nav)`, and only then apply the day's
transactions.  (3) All transactions of a date are folded at the single NAV
computed once for that date, with no recomputation between them. -/
theorem C2_eod_convention :
    (∀ (nm : NavManager) (tbd₁ tbd₂ : Nat → List Transaction) (d : Nat)
        (ds₁ ds₂ : List Nat) (st : PfState) (s₁ s₂ : List (Nat × ℚ)),
      runDates nm tbd₁ (d :: ds₁) st = .ok s₁ →
      runDates nm tbd₂ (d :: ds₂) st = .ok s₂ →
      s₁.head? = s₂.head?) ∧
    (∀ (nm : NavManager) (tbd : Nat → List Transaction) (d : Nat)
        (ds : List Nat) (st : PfState),
      runDates nm tbd (d :: ds) st =
        (day_nav nm d st).bind fun nav =>
          (apply_txns nav (tbd d) { st with current_nav := nav }).bind fun st' =>
            (runDates nm tbd ds st').map fun out => (d, nav) :: out) ∧
    (∀ (nav : ℚ) (ts : List Transaction) (st : PfState), nav ≠ 0 →
      apply_txns nav ts st = .ok (ts.foldl (spec_apply_one nav) st)) := by
  refine ⟨?_, runDates_cons, fun nav ts st hnav => apply_txns_eq_foldl nav hnav ts st⟩
  intro nm tbd₁ tbd₂ d ds₁ ds₂ st s₁ s₂ h₁ h₂
  obtain ⟨nav₁, st₁, out₁, hnav₁, _, _, hs₁⟩ := runDates_ok_elim nm tbd₁ d ds₁ st s₁ h₁
  obtain ⟨nav₂, st₂, out₂, hnav₂, _, _, hs₂⟩ := runDates_ok_elim nm tbd₂ d ds₂ st s₂ h₂
  rw [hnav₁] at hnav₂
  cases hnav₂
  rw [hs₁, hs₂]
  rfl

/-- Witness for C2: the two same-day transactions of the day-3 re-entry of
the C9 scenario are both converted at the single NAV 1100. -/
theorem C2_eod_convention_witness :
    apply_txns 1100
      [{ mf_name := "MF1", date := 3, txn_type := .BUY, units := 10, nav := 115 },
       { mf_name := "MF2", date := 3, txn_type := .BUY, units := 10, nav := 115 }]
      { portfolio_units := 0, curr_mf_units := [("MF1", 0)], current_nav := 1100 }
    = .ok
      ([{ mf_name := "MF1", date := 3, txn_type := .BUY, units := 10, nav := 115 },
        { mf_name := "MF2", date := 3, txn_type := .BUY, units := 10, nav := 115 }].foldl
        (spec_apply_one 1100)
        { portfolio_units := 0, curr_mf_units := [("MF1", 0)], current_nav := 1100 }) :=
  C2_eod_convention.2.2 1100
    [{ mf_name := "MF1", date := 3, txn_type := .BUY, units := 10, nav := 115 },
     { mf_name := "MF2", date := 3, txn_type := .BUY, units := 10, nav := 115 }]
    { portfolio_units := 0, curr_mf_units := [("MF1", 0)], current_nav := 1100 }
    (by norm_num)

/-- C3: zero-holding freeze.  (1) From any state with `portfolio_units = 0`
a walk over transaction-free dates reports the frozen `current_nav`
unchanged on every date (after a full withdrawal the carried state has
`portfolio_units = 0` and `current_nav` equal to the withdrawal date's NAV,
so all dates before re-entry report that constant value).  (2) If
`portfolio_units = 0` entering a date — in particular the re-entry date
itself, whatever transactions it carries — that date's reported NAV is the
frozen `current_nav`; new performance can show only on later dates.
(3) A successful `calculate_pf_nav` run always reports the configured
`base_nav` on its first relevant date, the initial frozen value. -/
theorem C3_zero_units_freeze :
    (∀ (nm : NavManager) (tbd : Nat → List Transaction) (ds : List Nat)
        (st : PfState), st.portfolio_units = 0 → (∀ d ∈ ds, tbd d = []) →
      runDates nm tbd ds st = .ok (ds.map fun d => (d, st.current_nav))) ∧
    (∀ (nm : NavManager) (tbd : Nat → List Transaction) (d : Nat)
        (ds : List Nat) (st : PfState) (s : List (Nat × ℚ)),
      st.portfolio_units = 0 → runDates nm tbd (d :: ds) st = .ok s →
      ∃ tail, s = (d, st.current_nav) :: tail) ∧
    (∀ (txns : List Transaction) (nm : NavManager) (base : ℚ)
        (s : List (Nat × ℚ)), calculate_pf_nav txns nm base = .ok s →
      ∃ d tail, s = (d, base) :: tail) := by
  have hfreeze : ∀ (nm : NavManager) (tbd : Nat → List Transaction)
      (ds : List Nat) (st : PfState), st.portfolio_units = 0 →
      (∀ d ∈ ds, tbd d = []) →
      runDates nm tbd ds st = .ok (ds.map fun d => (d, st.current_nav)) := by
    intro nm tbd ds
    induction ds with
    | nil => intro st _ _; rfl
    | cons d ds ih =>
      intro st h0 hno
      rw [runDates_cons]
      have hnav : day_nav nm d st = .ok st.current_nav := by
        simp [day_nav, h0, pure, Except.pure]
      rw [hnav, hno d (List.mem_cons_self d ds)]
      have hst : ({ st with current_nav := st.current_nav } : PfState) = st := rfl
      simp only [Except.bind, apply_txns, pure, Except.pure, hst]
      rw [ih st h0 (fun e he => hno e (List.mem_cons_of_mem d he))]
      rfl
  have hhead : ∀ (nm : NavManager) (tbd : Nat → List Transaction) (d : Nat)
      (ds : List Nat) (st : PfState) (s : List (Nat × ℚ)),
      st.portfolio_units = 0 → runDates nm tbd (d :: ds) st = .ok s →
      ∃ tail, s = (d, st.current_nav) :: tail := by
    intro nm tbd d ds st s h0 h
    obtain ⟨nav, st', out, hnav, _, _, hs⟩ := runDates_ok_elim nm tbd d ds st s h
    have : day_nav nm d st = .ok st.current_nav := by
      simp [day_nav, h0, pure, Except.pure]
    rw [this] at hnav
    cases hnav
    exact ⟨out, hs⟩
  refine ⟨hfreeze, hhead, ?_⟩
  intro txns nm base s h
  cases txns with
  | nil => simp [calculate_pf_nav] at h
  | cons t0 rest =>
    simp only [calculate_pf_nav] at h
    cases hrel : (nm.get_all_dates_sorted.filter
        (fun d => decide (t0.date ≤ d) && decide (d ≤ nm.current_date))) with
    | nil => rw [hrel] at h; simp at h
    | cons r0 rs =>
      rw [hrel, if_neg (by simp)] at h
      obtain ⟨tail, hs⟩ := hhead nm (txns_by_date (t0 :: rest)) r0 rs
        { portfolio_units := 0, curr_mf_units := [], current_nav := base } s rfl h
      exact ⟨r0, tail, hs⟩

/-- Witness for C3: a frozen state (units 0, last NAV 1100, the MF1
position fully withdrawn) walked over two transaction-free dates reports
the constant 1100. -/
theorem C3_zero_units_freeze_witness :
    runDates { navs := [(5, []), (6, [])], current_date := 6 } (fun _ => []) [5, 6]
      { portfolio_units := 0, curr_mf_units := [("MF1", 0)], current_nav := 1100 }
    = .ok [(5, 1100), (6, 1100)] := by
  have h := C3_zero_units_freeze.1 { navs := [(5, []), (6, [])], current_date := 6 }
    (fun _ => []) [5, 6]
    { portfolio_units := 0, curr_mf_units := [("MF1", 0)], current_nav := 1100 }
    rfl (fun d _ => rfl)
  simpa using h

/-- Walking transaction-free dates with a single-fund holding `[(F, u)]`
and nonzero `portfolio_units = U` reports `u * price(d, F) / U` on every
date. -/
theorem runDates_single_fund (nm : NavManager) (F : String) (u U : ℚ)
    (p : Nat → ℚ) (tbd : Nat → List Transaction) (hU : U ≠ 0) :
    ∀ (ds : List Nat) (nav0 : ℚ), (∀ d ∈ ds, tbd d = []) →
      (∀ d ∈ ds, ∃ row, lookupA nm.navs d = some row ∧ lookupA row F = some (p d)) →
      runDates nm tbd ds ⟨U, [(F, u)], nav0⟩ =
        .ok (ds.map fun d => (d, u * p d / U))
  | [], _, _, _ => rfl
  | d :: ds, nav0, hno, hpr => by
    obtain ⟨row, hrow, hF⟩ := hpr d (List.mem_cons_self d ds)
    have hval : nm.get_portfolio_value d [(F, u)] = .ok (u * p d) := by
      simp [NavManager.get_portfolio_value, hrow, sumUnits, hF, pure, Except.pure,
        bind, Except.bind]
    have hnav : day_nav nm d ⟨U, [(F, u)], nav0⟩ = .ok (u * p d / U) := by
      simp [day_nav, hU, hval, pure, Except.pure, bind, Except.bind]
    rw [runDates_cons, hnav, hno d (List.mem_cons_self d ds)]
    simp only [Except.bind, apply_txns, pure, Except.pure]
    rw [runDates_single_fund nm F u U p tbd hU ds (u * p d / U)
      (fun e he => hno e (List.mem_cons_of_mem d he))
      (fun e he => hpr e (List.mem_cons_of_mem d he))]
    rfl

/-- C5: single fund tracks relative price.  For a lone BUY of `u` units of
fund `F` at price `P` on the first relevant date `d0`, with every later
relevant date `d` carrying a price `p d` for `F`, the run reports `base`
on day `d0` and `base * p d / P` on every later date `d`. -/
theorem C5_single_fund_tracks_price (F : String) (u P base : ℚ) (d0 : Nat)
    (ds : List Nat) (nm : NavManager) (p : Nat → ℚ)
    (hkeys : nm.get_all_dates_sorted = d0 :: ds)
    (hrange : ∀ d ∈ d0 :: ds, d0 ≤ d ∧ d ≤ nm.current_date)
    (hd0 : d0 ∉ ds)
    (hprices : ∀ d ∈ ds, ∃ row, lookupA nm.navs d = some row ∧
      lookupA row F = some (p d))
    (hu : u ≠ 0) (hP : P ≠ 0) (hbase : base ≠ 0) :
    calculate_pf_nav [{ mf_name := F, date := d0, txn_type := .BUY, units := u, nav := P }] nm base
      = .ok ((d0, base) :: ds.map fun d => (d, base * p d / P)) := by
  have hfilter : (nm.get_all_dates_sorted.filter
      (fun d => decide (d0 ≤ d) && decide (d ≤ nm.current_date))) = d0 :: ds := by
    rw [hkeys]
    apply List.filter_eq_self.mpr
    intro a ha
    simp [(hrange a ha).1, (hrange a ha).2]
  simp only [calculate_pf_nav, hfilter]
  rw [if_neg (by simp)]
  set t : Transaction :=
    { mf_name := F, date := d0, txn_type := .BUY, units := u, nav := P } with ht
  have htb0 : txns_by_date [t] d0 = [t] := by
    simp [txns_by_date, ht]
  have hnav0 : day_nav nm d0 ⟨0, [], base⟩ = .ok base := by
    simp [day_nav, pure, Except.pure]
  rw [runDates_cons, hnav0]
  simp only [Except.bind, htb0, apply_txns, pfDiv, if_neg hbase, pure, Except.pure,
    bind, Except.bind]
  have hsv : t.signed_value = u * P := by
    simp [ht, Transaction.signed_value, Transaction.value, Transaction.sign]
  have hsu : t.signed_units = u := by
    simp [ht, Transaction.signed_units, Transaction.sign]
  rw [hsv, hsu]
  have hU : u * P / base ≠ 0 := div_ne_zero (mul_ne_zero hu hP) hbase
  have hrun := runDates_single_fund nm F u (u * P / base) p (txns_by_date [t]) hU ds base
    (fun e he => by
      have hne : d0 ≠ e := fun hc => hd0 (hc ▸ he)
      simp [txns_by_date, ht, List.filter, beq_eq_false_iff_ne.mpr hne])
    hprices
  simp only [bumpUnits, zero_add] at hrun ⊢
  rw [hrun]
  have : ∀ d ∈ ds, u * p d / (u * P / base) = base * p d / P := by
    intro d _
    field_simp
    ring
  rw [List.map_congr_left (fun d hd => by rw [this d hd])]
  rfl

/-- Witness for C5: one BUY of 10 units of fund A at price 100 on day 1,
with A priced 110 on day 2: the run reports 1000 then 1000·110/100 = 1100. -/
theorem C5_single_fund_tracks_price_witness :
    calculate_pf_nav
      [{ mf_name := "A", date := 1, txn_type := .BUY, units := 10, nav := 100 }]
      { navs := [(1, [("A", 100)]), (2, [("A", 110)])], current_date := 2 }
      1000
    = .ok [(1, 1000), (2, 1100)] := by
  have h := C5_single_fund_tracks_price "A" 10 100 1000 1 [2]
    { navs := [(1, [("A", 100)]), (2, [("A", 110)])], current_date := 2 }
    (fun d => if d = 2 then 110 else 0)
    (by decide) (by decide) (by decide)
    (by
      intro d hd
      simp only [List.mem_singleton] at hd
      subst hd
      exact ⟨[("A", 110)], rfl, rfl⟩)
    (by norm_num) (by norm_num) (by norm_num)
  norm_num at h
  exact h

/-- Bumping the units of fund `f` by `δ` shifts the portfolio value by
`δ * price(f)` — regardless of where (or whether) `f` already occurs. -/
theorem sumUnits_bump (row : List (String × ℚ)) (f : String) (δ pf : ℚ)
    (hpf : lookupA row f = some pf) :
    ∀ (h : List (String × ℚ)) (v : ℚ), sumUnits row h = .ok v →
      sumUnits row (bumpUnits h f δ) = .ok (v + δ * pf)
  | [], v, hv => by
    simp only [sumUnits, pure, Except.pure, Except.ok.injEq] at hv
    subst hv
    simp only [bumpUnits, sumUnits, hpf, pure, Except.pure, bind, Except.bind]
    norm_num
  | (k, q) :: rest, v, hv => by
    by_cases hk : k = f
    · subst hk
      simp only [sumUnits, hpf, bind, Except.bind] at hv
      cases hs : sumUnits row rest with
      | error e => rw [hs] at hv; simp at hv
      | ok s =>
        rw [hs] at hv
        simp only [pure, Except.pure, Except.ok.injEq] at hv
        simp only [bumpUnits, if_pos rfl, sumUnits, hpf, hs, bind, Except.bind,
          pure, Except.pure, Except.ok.injEq]
        rw [← hv]
        ring
    · simp only [sumUnits, bind, Except.bind] at hv
      cases hlk : lookupA row k with
      | none => rw [hlk] at hv; simp at hv
      | some pk =>
        rw [hlk] at hv
        cases hs : sumUnits row rest with
        | error e => rw [hs] at hv; simp at hv
        | ok s =>
          rw [hs] at hv
          simp only [pure, Except.pure, Except.ok.injEq] at hv
          have hrec := sumUnits_bump row f δ pf hpf rest s hs
          simp only [bumpUnits, if_neg hk, sumUnits, hlk, hrec, bind, Except.bind,
            pure, Except.pure, Except.ok.injEq]
          rw [← hv]
          ring

/-- C4: sell-neutrality of the next computed NAV.  A partial SELL `t`
executed at the day's NAV `n` from a state with nonzero `portfolio_units`
leaves the next date's computed NAV numerically unaffected, on any next
date `e` whose prices move the two runs' market values proportionally (the
hypothesis `hprop`: the sold fund's relative price move `pg / t.nav` equals
the portfolio's per-unit move `(v / U) / n`, cross-multiplied — this is the
claim's carve-out for dates where fund composition makes the values differ
non-proportionally).  Both the run continuing from the post-sale state
`st'` and the run from the no-sale state `st` report `(e, v / U)`. -/
theorem C4_sell_neutral_next_nav (nm : NavManager) (e : Nat) (st st' : PfState)
    (t : Transaction) (v pg n : ℚ) (row : List (String × ℚ))
    (htype : t.txn_type = .SELL)
    (hU : st.portfolio_units ≠ 0)
    (hn : n ≠ 0)
    (happly : apply_txns n [t] { st with current_nav := n } = .ok st')
    (hU' : st'.portfolio_units ≠ 0)
    (hrow : lookupA nm.navs e = some row)
    (hv : sumUnits row st.curr_mf_units = .ok v)
    (hpg : lookupA row t.mf_name = some pg)
    (hprop : pg * (n * st.portfolio_units) = v * t.nav) :
    runDates nm (fun _ => []) [e] st' = .ok [(e, v / st.portfolio_units)] ∧
    runDates nm (fun _ => []) [e] st = .ok [(e, v / st.portfolio_units)] := by
  have hsv : t.signed_value = -(t.units * t.nav) := by
    simp [Transaction.signed_value, Transaction.value, Transaction.sign, htype]
  have hsu : t.signed_units = -t.units := by
    simp [Transaction.signed_units, Transaction.sign, htype]
  simp only [apply_txns, pfDiv, if_neg hn, pure, Except.pure, bind, Except.bind,
    Except.ok.injEq] at happly
  have hval' : sumUnits row (bumpUnits st.curr_mf_units t.mf_name t.signed_units)
      = .ok (v + t.signed_units * pg) :=
    sumUnits_bump row t.mf_name t.signed_units pg hpg st.curr_mf_units v hv
  constructor
  · rw [← happly] at hU' ⊢
    simp only at hU'
    have hnav' : day_nav nm e
        { portfolio_units := st.portfolio_units + t.signed_value / n,
          curr_mf_units := bumpUnits st.curr_mf_units t.mf_name t.signed_units,
          current_nav := n }
        = .ok (v / st.portfolio_units) := by
      simp only [day_nav, NavManager.get_portfolio_value, hrow, hval',
        if_pos hU', bind, Except.bind, pure, Except.pure]
      congr 1
      rw [hsu, hsv]
      rw [hsv] at hU'
      rw [div_eq_div_iff hU' hU]
      field_simp
      linear_combination (-t.units) * hprop
    rw [runDates_cons, hnav']
    simp [Except.bind, apply_txns, runDates, pure, Except.pure, Except.map]
  · have hnav : day_nav nm e st = .ok (v / st.portfolio_units) := by
      simp [day_nav, NavManager.get_portfolio_value, hrow, hv, if_pos hU,
        bind, Except.bind, pure, Except.pure]
    rw [runDates_cons, hnav]
    simp [Except.bind, apply_txns, runDates, pure, Except.pure, Except.map]

/-- Witness for C4, the numbers of the repository's partial-sell test:
units 20, holdings MF1=100 MF2=100, day NAV 1210, SELL 50 MF1 @ 121; next
date both funds at 110.  With and without the sale the next NAV is 1100. -/
theorem C4_sell_neutral_next_nav_witness :
    runDates { navs := [(4, [("MF1", 110), ("MF2", 110)])], current_date := 4 }
      (fun _ => []) [4]
      { portfolio_units := 15, curr_mf_units := [("MF1", 50), ("MF2", 100)],
        current_nav := 1210 }
      = .ok [(4, 1100)] ∧
    runDates { navs := [(4, [("MF1", 110), ("MF2", 110)])], current_date := 4 }
      (fun _ => []) [4]
      { portfolio_units := 20, curr_mf_units := [("MF1", 100), ("MF2", 100)],
        current_nav := 1210 }
      = .ok [(4, 1100)] := by
  have h := C4_sell_neutral_next_nav
    { navs := [(4, [("MF1", 110), ("MF2", 110)])], current_date := 4 } 4
    { portfolio_units := 20, curr_mf_units := [("MF1", 100), ("MF2", 100)],
      current_nav := 1210 }
    { portfolio_units := 15, curr_mf_units := [("MF1", 50), ("MF2", 100)],
      current_nav := 1210 }
    { mf_name := "MF1", date := 3, txn_type := .SELL, units := 50, nav := 121 }
    22000 110 1210 [("MF1", 110), ("MF2", 110)]
    rfl (by norm_num) (by norm_num)
    (by norm_num +decide [apply_txns, pfDiv, bumpUnits, Transaction.signed_value,
      Transaction.signed_units, Transaction.value, Transaction.sign,
      pure, Except.pure, bind, Except.bind])
    (by norm_num)
    (by decide)
    (by norm_num +decide [sumUnits, lookupA, pure, Except.pure, bind, Except.bind])
    (by decide)
    (by norm_num)
  norm_num at h
  exact h

/-- C6 (amended): on every successful run the output dates are strictly
ascending with no duplicates, and they are exactly the dates *of the price
table* (not of the union with transaction dates) lying between the first
transaction's date and the table's `current_date`. -/
theorem C6_output_dates_amended (txns : List Transaction) (nm : NavManager)
    (base : ℚ) (s : List (Nat × ℚ))
    (h : calculate_pf_nav txns nm base = .ok s) :
    (s.map Prod.fst).Pairwise (· < ·) ∧
    ∃ t0 rest, txns = t0 :: rest ∧
      ∀ d : Nat, d ∈ s.map Prod.fst ↔
        (d ∈ nm.navs.map Prod.fst ∧ t0.date ≤ d ∧ d ≤ nm.current_date) := by
  cases txns with
  | nil => simp [calculate_pf_nav] at h
  | cons t0 rest =>
    simp only [calculate_pf_nav] at h
    by_cases hrel : (nm.get_all_dates_sorted.filter
        (fun d => decide (t0.date ≤ d) && decide (d ≤ nm.current_date))) = []
    · rw [if_pos hrel] at h; simp at h
    · rw [if_neg hrel] at h
      have hfst := runDates_fst nm (txns_by_date (t0 :: rest)) _ _ s h
      have hsorted : nm.get_all_dates_sorted.Pairwise (· < ·) := by
        have hle : nm.get_all_dates_sorted.Sorted (· ≤ ·) :=
          List.sorted_insertionSort _ _
        have hnd : nm.get_all_dates_sorted.Nodup :=
          (List.perm_insertionSort _ _).symm.nodup (List.nodup_dedup _)
        exact (hle.and hnd).imp fun hab => lt_of_le_of_ne hab.1 hab.2
      constructor
      · rw [hfst]
        exact List.Pairwise.sublist (List.filter_sublist _) hsorted
      · refine ⟨t0, rest, rfl, ?_⟩
        intro d
        rw [hfst, List.mem_filter]
        simp only [NavManager.get_all_dates_sorted, List.mem_insertionSort,
          List.mem_dedup, Bool.and_eq_true, decide_eq_true_eq]

/-- Witness for C6 (amended): applied to a two-date run. -/
theorem C6_output_dates_amended_witness :
    (([(1, 1000), (2, 1000)] : List (Nat × ℚ)).map Prod.fst).Pairwise (· < ·) ∧
    ∃ t0 rest,
      ([{ mf_name := "A", date := 1, txn_type := .BUY, units := 1, nav := 1 }] :
        List Transaction) = t0 :: rest ∧
      ∀ d : Nat, d ∈ (([(1, 1000), (2, 1000)] : List (Nat × ℚ)).map Prod.fst) ↔
        (d ∈ ([(1, [("A", 1)]), (2, [("A", 1)])] :
            List (Nat × List (String × ℚ))).map Prod.fst ∧
          t0.date ≤ d ∧ d ≤ 2) :=
  C6_output_dates_amended
    [{ mf_name := "A", date := 1, txn_type := .BUY, units := 1, nav := 1 }]
    { navs := [(1, [("A", 1)]), (2, [("A", 1)])], current_date := 2 }
    1000 [(1, 1000), (2, 1000)]
    (by norm_num +decide [calculate_pf_nav, runDates, apply_txns, txns_by_date,
      pfDiv, NavManager.get_portfolio_value, NavManager.get_all_dates_sorted,
      sumUnits, lookupA, bumpUnits, Transaction.signed_value,
      Transaction.signed_units, Transaction.value, Transaction.sign,
      List.insertionSort, List.orderedInsert, Except.pure, pure, bind,
      Except.bind, List.filter, List.dedup])

/-- C6 (counterexample): with a transaction dated day 2 — a date inside the
range but absent from the price table — the output dates are [1, 3], not
the spec's §4.1 relevant-date set [1, 2, 3] drawn from the union of table
dates and transaction dates.  The claim that the output forms exactly that
union-based set is false; the day-2 transaction is silently ignored. -/
theorem C6_output_dates_cx :
    calculate_pf_nav
      [{ mf_name := "A", date := 1, txn_type := .BUY, units := 100, nav := 100 },
       { mf_name := "A", date := 2, txn_type := .BUY, units := 10, nav := 121 }]
      { navs := [(1, [("A", 100)]), (3, [("A", 121)])], current_date := 3 }
      1000
      = .ok [(1, 1000), (3, 1210)] ∧
    spec_relevant_dates
      [{ mf_name := "A", date := 1, txn_type := .BUY, units := 100, nav := 100 },
       { mf_name := "A", date := 2, txn_type := .BUY, units := 10, nav := 121 }]
      { navs := [(1, [("A", 100)]), (3, [("A", 121)])], current_date := 3 }
      = [1, 2, 3] ∧
    ([(1, 1000), (3, 1210)] : List (Nat × ℚ)).map Prod.fst ≠ [1, 2, 3] := by
  refine ⟨?_, by decide, by decide⟩
  norm_num +decide [calculate_pf_nav, runDates, apply_txns, txns_by_date, pfDiv,
    NavManager.get_portfolio_value, NavManager.get_all_dates_sorted, sumUnits,
    lookupA, bumpUnits, Transaction.signed_value, Transaction.signed_units,
    Transaction.value, Transaction.sign, List.insertionSort, List.orderedInsert,
    Except.pure, pure, bind, Except.bind, List.filter, List.dedup]

/-- C7 (amended): the missing-price behaviour of `calculate_pf_nav`.
(1) If every fund *recorded in `curr_mf_units`* — zero holdings included —
has a price in the row, the valuation succeeds.  (2) If the valuation
fails, the failure is a missing-price error for some fund recorded in
`curr_mf_units`, whatever its (possibly zero) holdings, whose price is
absent: no default is substituted and no fund is skipped.  (3) On any date
entered with `portfolio_units ≠ 0`, a valuation failure aborts the whole
run with that same error.  (The original claim — that funds with zero
holdings never require a price — is refuted by `C7_missing_price_cx`:
`get_portfolio_value` iterates over every recorded fund, pfnav.py line
52, so a fully-sold fund still needs a price.) -/
theorem C7_missing_price_amended :
    (∀ (row mf_units : List (String × ℚ)),
      (∀ fq ∈ mf_units, (lookupA row fq.1).isSome) →
      ∃ v, sumUnits row mf_units = .ok v) ∧
    (∀ (row mf_units : List (String × ℚ)) (e : PfError),
      sumUnits row mf_units = .error e →
      ∃ f q, (f, q) ∈ mf_units ∧ lookupA row f = none ∧ e = .missingPrice f) ∧
    (∀ (nm : NavManager) (tbd : Nat → List Transaction) (d : Nat)
        (ds : List Nat) (st : PfState) (e : PfError),
      st.portfolio_units ≠ 0 →
      nm.get_portfolio_value d st.curr_mf_units = .error e →
      runDates nm tbd (d :: ds) st = .error e) := by
  have h1 : ∀ (row mf_units : List (String × ℚ)),
      (∀ fq ∈ mf_units, (lookupA row fq.1).isSome) →
      ∃ v, sumUnits row mf_units = .ok v := by
    intro row mf_units
    induction mf_units with
    | nil => exact fun _ => ⟨0, rfl⟩
    | cons fq rest ih =>
      intro hall
      obtain ⟨f, q⟩ := fq
      obtain ⟨price, hlk⟩ := Option.isSome_iff_exists.mp
        (hall (f, q) (List.mem_cons_self _ _))
      obtain ⟨v, hv⟩ := ih (fun e he => hall e (List.mem_cons_of_mem _ he))
      exact ⟨q * price + v,
        by simp [sumUnits, hlk, hv, bind, Except.bind, pure, Except.pure]⟩
  have h2 : ∀ (row mf_units : List (String × ℚ)) (e : PfError),
      sumUnits row mf_units = .error e →
      ∃ f q, (f, q) ∈ mf_units ∧ lookupA row f = none ∧ e = .missingPrice f := by
    intro row mf_units
    induction mf_units with
    | nil => intro e he; simp [sumUnits, pure, Except.pure] at he
    | cons fq rest ih =>
      intro e he
      obtain ⟨f, q⟩ := fq
      cases hlk : lookupA row f with
      | none =>
        simp only [sumUnits, hlk, Except.error.injEq] at he
        exact ⟨f, q, List.mem_cons_self _ _, hlk, he.symm⟩
      | some price =>
        simp only [sumUnits, hlk, bind, Except.bind] at he
        cases hs : sumUnits row rest with
        | error e' =>
          rw [hs] at he
          simp only [Except.error.injEq] at he
          obtain ⟨f', q', hmem, hnone, hf⟩ := ih e' hs
          exact ⟨f', q', List.mem_cons_of_mem _ hmem, hnone, he ▸ hf⟩
        | ok s => rw [hs] at he; simp [pure, Except.pure] at he
  refine ⟨h1, h2, ?_⟩
  intro nm tbd d ds st e hU herr
  have hnav : day_nav nm d st = .error e := by
    simp [day_nav, hU, herr, bind, Except.bind]
  rw [runDates_cons, hnav]
  rfl

/-- Witness for C7 (amended), clause 3: the error of `C7_missing_price_cx`
propagates out of the date walk. -/
theorem C7_missing_price_amended_witness :
    runDates
      { navs := [(1, [("A", 100), ("B", 100)]), (2, [("A", 100), ("B", 100)]),
                 (3, [("A", 100)])], current_date := 3 }
      (fun _ => []) [3]
      { portfolio_units := 10, curr_mf_units := [("A", 100), ("B", 0)],
        current_nav := 1000 }
      = .error (.missingPrice "B") :=
  C7_missing_price_amended.2.2
    { navs := [(1, [("A", 100), ("B", 100)]), (2, [("A", 100), ("B", 100)]),
               (3, [("A", 100)])], current_date := 3 }
    (fun _ => []) 3 []
    { portfolio_units := 10, curr_mf_units := [("A", 100), ("B", 0)],
      current_nav := 1000 }
    (.missingPrice "B")
    (by norm_num)
    (by norm_num +decide [NavManager.get_portfolio_value, sumUnits, lookupA,
      pure, Except.pure, bind, Except.bind])

/-- C7 (counterexample): buy funds A and B on day 1, sell B entirely on
day 2, and give day 3 a price for A only.  Entering day 3 the holdings are
A = 100, B = 0 (second conjunct), so every fund with *nonzero* holdings is
priced — by the claim no missing-price error may be raised — yet
`calculate_pf_nav` fails with `missingPrice "B"`, because
`get_portfolio_value` demands a price for the zero-holding fund B too. -/
theorem C7_missing_price_cx :
    calculate_pf_nav
      [{ mf_name := "A", date := 1, txn_type := .BUY, units := 100, nav := 100 },
       { mf_name := "B", date := 1, txn_type := .BUY, units := 100, nav := 100 },
       { mf_name := "B", date := 2, txn_type := .SELL, units := 100, nav := 100 }]
      { navs := [(1, [("A", 100), ("B", 100)]), (2, [("A", 100), ("B", 100)]),
                 (3, [("A", 100)])], current_date := 3 }
      1000
      = .error (.missingPrice "B") ∧
    bumpUnits (bumpUnits (bumpUnits ([] : List (String × ℚ)) "A" 100) "B" 100)
      "B" (-100) = [("A", 100), ("B", 0)] := by
  constructor
  · norm_num +decide [calculate_pf_nav, runDates, apply_txns, txns_by_date, pfDiv,
      NavManager.get_portfolio_value, NavManager.get_all_dates_sorted, sumUnits,
      lookupA, bumpUnits, Transaction.signed_value, Transaction.signed_units,
      Transaction.value, Transaction.sign, List.insertionSort, List.orderedInsert,
      Except.pure, pure, bind, Except.bind, List.filter, List.dedup]
  · norm_num +decide [bumpUnits]

/-- C8 (amended): when a date entered with `portfolio_units ≠ 0` values the
portfolio at exactly 0, `calculate_pf_nav` raises no error of any kind at
that date — there is no `DegenerateValueError` in the source (see
`PfError`) — it simply reports NAV `0 / portfolio_units = 0` and carries
on: (1) with no transactions that day the walk continues from the state
with `current_nav = 0`; (2) a transaction dated that day then divides by
the zero NAV and the run dies with `DivisionByZero` instead. -/
theorem C8_degenerate_amended :
    (∀ (nm : NavManager) (tbd : Nat → List Transaction) (d : Nat)
        (ds : List Nat) (st : PfState), st.portfolio_units ≠ 0 →
      nm.get_portfolio_value d st.curr_mf_units = .ok 0 → tbd d = [] →
      runDates nm tbd (d :: ds) st =
        (runDates nm tbd ds { st with current_nav := 0 }).map
          fun out => ((d, (0 : ℚ)) :: out)) ∧
    (∀ (nm : NavManager) (tbd : Nat → List Transaction) (d : Nat)
        (ds : List Nat) (st : PfState) (t : Transaction) (ts : List Transaction),
      st.portfolio_units ≠ 0 →
      nm.get_portfolio_value d st.curr_mf_units = .ok 0 → tbd d = t :: ts →
      runDates nm tbd (d :: ds) st = .error .divisionByZero) := by
  have hnav0 : ∀ (nm : NavManager) (d : Nat) (st : PfState),
      st.portfolio_units ≠ 0 → nm.get_portfolio_value d st.curr_mf_units = .ok 0 →
      day_nav nm d st = .ok 0 := by
    intro nm d st hU hv0
    simp [day_nav, hU, hv0, bind, Except.bind, pure, Except.pure]
  constructor
  · intro nm tbd d ds st hU hv0 hno
    rw [runDates_cons, hnav0 nm d st hU hv0, hno]
    simp [Except.bind, apply_txns, pure, Except.pure]
  · intro nm tbd d ds st t ts hU hv0 htd
    rw [runDates_cons, hnav0 nm d st hU hv0, htd]
    simp [Except.bind, apply_txns, pfDiv, bind, pure, Except.pure]

/-- Witness for C8 (amended), clause 1: a long-A short-B state whose value
nets to 0 on day 2 reports `(2, 0)` and no error. -/
theorem C8_degenerate_amended_witness :
    runDates { navs := [(2, [("A", 50), ("B", 100)])], current_date := 2 }
      (fun _ => []) [2]
      { portfolio_units := 5, curr_mf_units := [("A", 100), ("B", -50)],
        current_nav := 1000 }
      = .ok [(2, 0)] := by
  have h := C8_degenerate_amended.1
    { navs := [(2, [("A", 50), ("B", 100)])], current_date := 2 }
    (fun _ => []) 2 []
    { portfolio_units := 5, curr_mf_units := [("A", 100), ("B", -50)],
      current_nav := 1000 }
    (by norm_num)
    (by norm_num +decide [NavManager.get_portfolio_value, sumUnits, lookupA,
      pure, Except.pure, bind, Except.bind])
    rfl
  simpa [runDates, Except.map, pure, Except.pure] using h

/-- C8 (counterexample): buy 100 A and (short-)sell 50 B on day 1, with
day 2 prices A=50, B=100: day 2 is entered with `portfolio_units = 5 ≠ 0`
and portfolio value 100·50 − 50·100 = 0, yet the run *succeeds*, reporting
NAV 0 for day 2 — it does not fail with any `DegenerateValueError` (no such
error exists in the source), refuting the claim. -/
theorem C8_degenerate_cx :
    calculate_pf_nav
      [{ mf_name := "A", date := 1, txn_type := .BUY, units := 100, nav := 100 },
       { mf_name := "B", date := 1, txn_type := .SELL, units := 50, nav := 100 }]
      { navs := [(1, [("A", 100), ("B", 100)]), (2, [("A", 50), ("B", 100)])],
        current_date := 2 }
      1000
      = .ok [(1, 1000), (2, 0)] := by
  norm_num +decide [calculate_pf_nav, runDates, apply_txns, txns_by_date, pfDiv,
    NavManager.get_portfolio_value, NavManager.get_all_dates_sorted, sumUnits,
    lookupA, bumpUnits, Transaction.signed_value, Transaction.signed_units,
    Transaction.value, Transaction.sign, List.insertionSort, List.orderedInsert,
    Except.pure, pure, bind, Except.bind, List.filter, List.dedup]

/-- C10 (amended): a transaction `t` other than the first one whose date is
not a price-table date, or is before the first transaction's date, or is
after the table's `current_date`, is silently ignored: the run equals the
run with `t` removed (in particular `t` never touches holdings or
`portfolio_units`, contributes no output entry and raises no error).  The
restriction to non-first transactions is forced by
`C10_ignored_txn_cx`: the *first* transaction's date sets the lower bound
of the relevant-date range even when the transaction itself is ignored, so
removing it can change the output series. -/
theorem C10_ignored_txn_amended (t0 : Transaction) (pre post : List Transaction)
    (t : Transaction) (nm : NavManager) (base : ℚ)
    (hout : t.date ∉ nm.navs.map Prod.fst ∨ t.date < t0.date ∨
      nm.current_date < t.date) :
    calculate_pf_nav (t0 :: (pre ++ t :: post)) nm base =
      calculate_pf_nav (t0 :: (pre ++ post)) nm base := by
  simp only [calculate_pf_nav]
  by_cases h0 : (nm.get_all_dates_sorted.filter
      (fun d => decide (t0.date ≤ d) && decide (d ≤ nm.current_date))) = []
  · rw [if_pos h0, if_pos h0]
  · rw [if_neg h0, if_neg h0]
    apply runDates_congr
    intro d hd
    have hdmem : d ∈ nm.navs.map Prod.fst ∧ t0.date ≤ d ∧ d ≤ nm.current_date := by
      rw [List.mem_filter] at hd
      simp only [NavManager.get_all_dates_sorted, List.mem_insertionSort,
        List.mem_dedup, Bool.and_eq_true, decide_eq_true_eq] at hd
      exact ⟨hd.1, hd.2⟩
    have hne : t.date ≠ d := by
      rcases hout with h | h | h
      · exact fun hc => h (hc ▸ hdmem.1)
      · have := hdmem.2.1; omega
      · have := hdmem.2.2; omega
    simp [txns_by_date, List.filter_append, List.filter_cons,
      beq_eq_false_iff_ne.mpr hne]

/-- Witness for C10 (amended): a second transaction dated before the first
one is ignored and its removal leaves the run unchanged. -/
theorem C10_ignored_txn_amended_witness :
    calculate_pf_nav
      [{ mf_name := "A", date := 1, txn_type := .BUY, units := 100, nav := 100 },
       { mf_name := "A", date := 0, txn_type := .BUY, units := 999, nav := 1 }]
      { navs := [(1, [("A", 100)])], current_date := 1 } 1000 =
    calculate_pf_nav
      [{ mf_name := "A", date := 1, txn_type := .BUY, units := 100, nav := 100 }]
      { navs := [(1, [("A", 100)])], current_date := 1 } 1000 :=
  C10_ignored_txn_amended
    { mf_name := "A", date := 1, txn_type := .BUY, units := 100, nav := 100 }
    [] []
    { mf_name := "A", date := 0, txn_type := .BUY, units := 999, nav := 1 }
    { navs := [(1, [("A", 100)])], current_date := 1 } 1000
    (Or.inr (Or.inl (by norm_num)))

/-- C10 (counterexample): the claim fails for the *first* transaction.
Here `t0` is dated day 0, which is not among the table dates {1, 2, 3}, so
by the claim it is silently ignored and the series should equal the run
without it.  It is indeed never applied (day 1 and day 2 still report the
base NAV 1000), but its date anchors the relevant-date range: with `t0` the
output covers days 1-3, without it the output starts at day 2, so the two
series differ. -/
theorem C10_ignored_txn_cx :
    calculate_pf_nav
      [{ mf_name := "A", date := 0, txn_type := .BUY, units := 100, nav := 100 },
       { mf_name := "A", date := 2, txn_type := .BUY, units := 10, nav := 110 }]
      { navs := [(1, [("A", 100)]), (2, [("A", 110)]), (3, [("A", 121)])],
        current_date := 3 }
      1000
      = .ok [(1, 1000), (2, 1000), (3, 1100)] ∧
    calculate_pf_nav
      [{ mf_name := "A", date := 2, txn_type := .BUY, units := 10, nav := 110 }]
      { navs := [(1, [("A", 100)]), (2, [("A", 110)]), (3, [("A", 121)])],
        current_date := 3 }
      1000
      = .ok [(2, 1000), (3, 1100)] ∧
    (Except.ok [(1, (1000 : ℚ)), (2, 1000), (3, 1100)] :
        Except PfError (List (Nat × ℚ))) ≠
      .ok [(2, 1000), (3, 1100)] := by
  refine ⟨?_, ?_, by simp⟩ <;>
  norm_num +decide [calculate_pf_nav, runDates, apply_txns, txns_by_date, pfDiv,
    NavManager.get_portfolio_value, NavManager.get_all_dates_sorted, sumUnits,
    lookupA, bumpUnits, Transaction.signed_value, Transaction.signed_units,
    Transaction.value, Transaction.sign, List.insertionSort, List.orderedInsert,
    Except.pure, pure, bind, Except.bind, List.filter, List.dedup]
